import Mathlib

/-!
Verification development for the media-download pipeline of
`ai_media_studio_cli` (files `download.py` and `ui_components.py`).

The Python functions are shallowly embedded as executable Lean
definitions.  Filesystem paths are modelled as lists of path segments
(`List String`); the external collaborators (the storage service's
signed-URL issuance and deletion, and the HTTP fetch) are modelled as
oracle functions gathered in an `Env` structure; the ambient flag
`GCS_AVAILABLE` (set at import time in `download.py`) is a field of the
same structure.  Python string primitives used by the source
(`str.startswith`, `str.replace`, `str.split(sep, 1)`, `str.lower`,
`pathlib.Path.name`, `pathlib.Path.suffix`, `urllib.parse.urlparse`)
are embedded as structurally recursive functions over `List Char`.
-/

namespace AiMediaStudio

/-- Model of Python `s.startswith(p)`. -/
def strStartsWith (s p : String) : Bool :=
  s.toList.take p.toList.length == p.toList

/-- ASCII lowering of one character; models Python `str.lower` on the
ASCII range (the only range exercised by the extension table). -/
def lowerChar (c : Char) : Char :=
  if 65 ≤ c.toNat ∧ c.toNat ≤ 90 then Char.ofNat (c.toNat + 32) else c

/-- Model of Python `s.lower()`. -/
def lowerStr (s : String) : String :=
  (s.toList.map lowerChar).asString

/-- Split a character list at every occurrence of `sep`;
models Python `s.split(sep)` for a one-character separator. -/
def splitCharAux (sep : Char) : List Char → List Char → List (List Char)
  | [], acc => [acc.reverse]
  | c :: cs, acc =>
    if c = sep then acc.reverse :: splitCharAux sep cs []
    else splitCharAux sep cs (c :: acc)

/-- Split on a one-character separator, Python `str.split` semantics:
the result is never empty, and `"".split(c) == [""]`. -/
def splitChar (sep : Char) (l : List Char) : List (List Char) :=
  splitCharAux sep l []

/-- Join character lists with `'/'`; inverse of `splitChar '/'`. -/
def joinSlash : List (List Char) → List Char
  | [] => []
  | [x] => x
  | x :: xs => x ++ '/' :: joinSlash xs

/-- Model of Python `s.split("/", 1)`: at most one split, at the first
slash.  The result has one element (no slash) or two. -/
def splitOnce (s : String) : List String :=
  match splitChar '/' s.toList with
  | [] => [s]
  | [x] => [x.asString]
  | x :: rest => [x.asString, (joinSlash rest).asString]

/-- Fuel-driven worker for `replaceAllChars`; the fuel is the input
length, which suffices because every step consumes at least one
character. -/
def replaceAux (pat rep : List Char) : Nat → List Char → List Char
  | _, [] => []
  | 0, l => l
  | fuel + 1, c :: cs =>
    if pat.length ≠ 0 ∧ (c :: cs).take pat.length = pat then
      rep ++ replaceAux pat rep fuel (cs.drop (pat.length - 1))
    else c :: replaceAux pat rep fuel cs

/-- Model of Python `s.replace(pat, rep)`: replaces every
non-overlapping occurrence, scanning left to right. -/
def replaceAllChars (pat rep l : List Char) : List Char :=
  replaceAux pat rep l.length l

/-- Model of the source's `uri.replace("gs://", "")`. -/
def stripGs (s : String) : String :=
  (replaceAllChars "gs://".toList [] s.toList).asString

/-- Model of Python `pathlib.PurePosixPath(s).name`: the last path
segment after dropping empty segments and `"."` segments. -/
def pathName (s : String) : String :=
  ((((splitChar '/' s.toList).filter
      (fun seg => !seg.isEmpty && seg != ['.'])).getLast?).getD []).asString

/-- Index of the last `'.'` in a character list, if any. -/
def rfindDotIdx : List Char → Option Nat
  | [] => none
  | c :: cs =>
    match rfindDotIdx cs with
    | some i => some (i + 1)
    | none => if c = '.' then some 0 else none

/-- Model of CPython `PurePath.suffix` applied to a bare name: the part
from the last dot, provided that dot is neither the first nor the last
character. -/
def nameSuffix (name : List Char) : List Char :=
  match rfindDotIdx name with
  | some i => if 0 < i ∧ i < name.length - 1 then name.drop i else []
  | none => []

/-- Model of Python `pathlib.PurePosixPath(s).suffix`. -/
def pathSuffix (s : String) : String :=
  (nameSuffix (pathName s).toList).asString

/-- First index satisfying `p`, models Python `str.find`. -/
def findIdxC (p : Char → Bool) : List Char → Option Nat
  | [] => none
  | c :: cs => if p c then some 0 else (findIdxC p cs).map (· + 1)

/-- Last index satisfying `p`, models Python `str.rfind`. -/
def rfindIdxC (p : Char → Bool) : List Char → Option Nat
  | [] => none
  | c :: cs =>
    match rfindIdxC p cs with
    | some i => some (i + 1)
    | none => if p c then some 0 else none

/-- First index at or after `start` satisfying `p`;
models Python `str.find(sub, start)`. -/
def findIdxFromC (p : Char → Bool) (l : List Char) (start : Nat) : Option Nat :=
  (findIdxC p (l.drop start)).map (· + start)

/-- ASCII letter test, models `c.isascii() and c.isalpha()`. -/
def isAsciiAlpha (c : Char) : Bool :=
  (65 ≤ c.toNat && c.toNat ≤ 90) || (97 ≤ c.toNat && c.toNat ≤ 122)

/-- ASCII digit test. -/
def isAsciiDigit (c : Char) : Bool :=
  48 ≤ c.toNat && c.toNat ≤ 57

/-- The characters CPython's `urlsplit` allows inside a URL scheme. -/
def schemeChar (c : Char) : Bool :=
  isAsciiAlpha c || isAsciiDigit c || c == '+' || c == '-' || c == '.'

/-- The `path` component of CPython `urllib.parse.urlparse`, on
characters: strip a valid scheme, then a `//netloc` part (up to the
first of `/`, `?`, `#`), then a `#fragment`, then a `?query`, and
finally the `;params` of the last path segment. -/
def urlPathChars (url : List Char) : List Char :=
  let afterScheme :=
    match findIdxC (fun c => c == ':') url with
    | some i =>
      if 0 < i ∧ isAsciiAlpha (url.headD ' ') = true ∧
          ((url.take i).drop 1).all schemeChar = true then
        url.drop (i + 1)
      else url
    | none => url
  let afterNetloc :=
    if afterScheme.take 2 = ['/', '/'] then
      let rest := afterScheme.drop 2
      match findIdxC (fun c => c == '/' || c == '?' || c == '#') rest with
      | some j => rest.drop j
      | none => []
    else afterScheme
  let beforeFrag :=
    match findIdxC (fun c => c == '#') afterNetloc with
    | some i => afterNetloc.take i
    | none => afterNetloc
  let beforeQuery :=
    match findIdxC (fun c => c == '?') beforeFrag with
    | some i => beforeFrag.take i
    | none => beforeFrag
  if beforeQuery.contains ';' then
    if beforeQuery.contains '/' then
      match rfindIdxC (fun c => c == '/') beforeQuery with
      | some r =>
        match findIdxFromC (fun c => c == ';') beforeQuery r with
        | some i => beforeQuery.take i
        | none => beforeQuery
      | none => beforeQuery
    else
      match findIdxC (fun c => c == ';') beforeQuery with
      | some i => beforeQuery.take i
      | none => beforeQuery
  else beforeQuery

/-- Model of `urlparse(uri).path` from the source. -/
def urlPath (s : String) : String :=
  (urlPathChars s.toList).asString

/-- Model of `pathlib` `/` on a directory and a final name: joining an
empty name contributes no segment, as in `PurePath(d, "")`. -/
def pathJoin (p : List String) (name : String) : List String :=
  if name = "" then p else p ++ [name]

/-- The video extensions of `MEDIA_TYPES` in `download.py` lines 26-30. -/
def videoExtensions : List String :=
  [".mp4", ".avi", ".mov", ".mkv", ".wmv", ".flv", ".webm", ".m4v", ".3gp"]

/-- The image extensions of `MEDIA_TYPES`. -/
def imageExtensions : List String :=
  [".jpg", ".jpeg", ".png", ".gif", ".bmp", ".tiff", ".svg", ".webp", ".ico"]

/-- The audio extensions of `MEDIA_TYPES`. -/
def audioExtensions : List String :=
  [".mp3", ".wav", ".flac", ".aac", ".ogg", ".wma", ".m4a", ".opus"]

/-- The `MEDIA_TYPES` table of `download.py` lines 26-30, in its
insertion order. -/
def MEDIA_TYPES : List (String × List String) :=
  [("videos", videoExtensions),
   ("images", imageExtensions),
   ("audios", audioExtensions)]

/-- Boolean membership test on string lists, models Python `in` on the
extension sets. -/
def memStr (x : String) : List String → Bool
  | [] => false
  | y :: ys => x == y || memStr x ys

/-- Embeds `get_media_type` from `download.py` lines 32-46: lower the
extension, walk the `MEDIA_TYPES` entries in order, return the first
category whose set contains it, else `"unknown"`. -/
def get_media_type (file_extension : String) : String :=
  if memStr (lowerStr file_extension) videoExtensions then "videos"
  else if memStr (lowerStr file_extension) imageExtensions then "images"
  else if memStr (lowerStr file_extension) audioExtensions then "audios"
  else "unknown"

/-- The ambient collaborators of `download.py`: the `GCS_AVAILABLE`
flag set by the import guard at lines 17-21, the storage service's
signed-URL issuance (`blob.generate_signed_url`, with client
construction failures folded into a `none` answer), the HTTP fetch of
`download_media_file` (taking the download URL and the target file
path), and the storage service's object deletion result. -/
structure Env where
  gcsAvailable : Bool
  signUrl : String → String → Option String
  fetchOk : String → List String → Bool
  deleteOk : String → String → Bool

/-- Embeds `convert_gcs_uri_to_signed_url` from `download.py` lines
113-160: fail when the storage client is unavailable; return non-GCS
references as-is; fail when the stripped URI cannot be split into
bucket and blob path; otherwise ask the collaborator for a signed
URL. -/
def convert_gcs_uri_to_signed_url (env : Env) (gcs_uri : String) : Option String :=
  if env.gcsAvailable = false then none
  else if strStartsWith gcs_uri "gs://" = false then some gcs_uri
  else
    match splitOnce (stripGs gcs_uri) with
    | [bucket, blob] => env.signUrl bucket blob
    | _ => none

/-- The collaborator-level delete issued by `delete_gcs_file`
(`download.py` lines 72-110): the `(bucket, blob)` pair on which
`blob.delete()` is called, or `none` when the function returns early
(client unavailable, not a GCS URI, or malformed URI). -/
def gcsDeleteTarget (env : Env) (gcs_uri : String) : Option (String × String) :=
  if env.gcsAvailable = false then none
  else if strStartsWith gcs_uri "gs://" = false then none
  else
    match splitOnce (stripGs gcs_uri) with
    | [bucket, blob] => some (bucket, blob)
    | _ => none

/-- The per-reference resolution step of `download_media_async`
(`download.py` lines 274-283): `download_url` starts as the URI and is
replaced by a signed URL for `gs://` URIs; a failed conversion makes
the loop `continue`, modelled as `none`. -/
def resolveStep (env : Env) (uri : String) : Option String :=
  if strStartsWith uri "gs://" then convert_gcs_uri_to_signed_url env uri
  else some uri

/-- The filename derivation of `download_media_async` (`download.py`
lines 247-261) for the reference at 1-based index `i`: for `gs://`
URIs take the `Path(...).name` of the part after the first slash,
falling back to `media_{i}` only when there is no slash; for other
references take the URL path's name, falling back to `media_{i}` when
that name is empty. -/
def deriveFilename (i : Nat) (uri : String) : String :=
  if strStartsWith uri "gs://" then
    match splitOnce (stripGs uri) with
    | [_, objPath] => pathName objPath
    | _ => "media_" ++ toString i
  else
    let filename := pathName (urlPath uri)
    if filename = "" then "media_" ++ toString i else filename

/-- The `media_folders.get(media_type, media_folders["unknown"])`
lookup of `download.py` line 267: the folder map produced by
`create_media_folders` sends each of its four keys to the equally
named subdirectory, and any other key falls back to `unknown`. -/
def folderFor (d : List String) (mt : String) : List String :=
  if mt = "videos" ∨ mt = "images" ∨ mt = "audios" ∨ mt = "unknown" then d ++ [mt]
  else d ++ ["unknown"]

/-- The target filepath computation of `download.py` lines 263-270:
classify `Path(filename).suffix.lower()` and place the file in the
category folder when organizing, else directly in the base
directory. -/
def targetPath (d : List String) (org : Bool) (filename : String) : List String :=
  if org then
    pathJoin (folderFor d (get_media_type (lowerStr (pathSuffix filename)))) filename
  else pathJoin d filename

/-- The loop of `download_media_async` lines 247-287, carrying the
1-based index: each reference is resolved; on failure the loop
continues without queuing a task; on success the entry
`(uri, download_url, filepath)` joins the fetch plan. -/
def fetchPlanFrom (env : Env) (d : List String) (org : Bool) :
    Nat → List String → List (String × String × List String)
  | _, [] => []
  | i, uri :: rest =>
    match resolveStep env uri with
    | none => fetchPlanFrom env d org (i + 1) rest
    | some durl =>
      (uri, durl, targetPath d org (deriveFilename i uri)) ::
        fetchPlanFrom env d org (i + 1) rest

/-- The complete fetch plan of a batch, starting at index 1 as in
`enumerate(media_uris, 1)`. -/
def fetchPlan (env : Env) (d : List String) (org : Bool) (uris : List String) :
    List (String × String × List String) :=
  fetchPlanFrom env d org 1 uris

/-- The `file_mapping` list of `download.py` line 287: the
`(uri, filepath)` pairs whose fetches are attempted. -/
def fileMapping (env : Env) (d : List String) (org : Bool) (uris : List String) :
    List (String × List String) :=
  (fetchPlan env d org uris).map (fun e => (e.1, e.2.2))

/-- The `results` list of `download.py` line 290: one boolean per
attempted fetch, from `asyncio.gather` over `download_media_file`. -/
def fetchResults (env : Env) (d : List String) (org : Bool) (uris : List String) :
    List Bool :=
  (fetchPlan env d org uris).map (fun e => env.fetchOk e.2.1 e.2.2)

/-- The `successful_downloads` list of `download.py` lines 293-295:
the mappings kept by `zip(file_mapping, results)` filtering on
success. -/
def successfulDownloads (env : Env) (d : List String) (org : Bool)
    (uris : List String) : List (String × List String) :=
  ((fileMapping env d org uris).zip (fetchResults env d org uris)).filterMap
    (fun p => if p.2 then some p.1 else none)

/-- The `delete_gcs_file` calls issued by the cleanup loop of
`download.py` lines 297-304: one call per successful download whose
original URI starts with `gs://`, only when `cleanup_gcs` is set (the
guard on a non-empty success list does not change the call list). -/
def cleanupCalls (env : Env) (d : List String) (org : Bool) (uris : List String)
    (cleanup_gcs : Bool) : List String :=
  if cleanup_gcs ∧ successfulDownloads env d org uris ≠ [] then
    ((successfulDownloads env d org uris).map Prod.fst).filter
      (fun u => strStartsWith u "gs://")
  else []

/-- The output directory of `download.py` lines 218-222. -/
def downloadDir (output_dir : Option String) : List String :=
  [output_dir.getD "downloaded_media"]

/-- Embeds the return value of `download_media_async` (`download.py`
lines 205-309): the successful `(uri, filepath)` pairs. -/
def download_media_async (env : Env) (media_uris : List String)
    (output_dir : Option String) (org : Bool) : List (String × List String) :=
  successfulDownloads env (downloadDir output_dir) org media_uris

/-- A filesystem abstraction for `create_media_folders`: the sets of
existing directories and of existing non-directory entries, each named
by its segment list. -/
structure FS where
  dirs : List (List String)
  files : List (List String)
deriving DecidableEq

/-- Model of `Path.mkdir(exist_ok=True)` without `parents`: error if
the path exists as a non-directory, no-op if it exists as a directory,
create it if the parent exists, otherwise error. -/
def mkdir_exist_ok (fs : FS) (p : List String) : Except String FS :=
  if p ∈ fs.files then Except.error "FileExistsError"
  else if p ∈ fs.dirs then Except.ok fs
  else if p.dropLast ∈ fs.dirs then Except.ok { dirs := p :: fs.dirs, files := fs.files }
  else Except.error "FileNotFoundError"

/-- The folder-creation loop of `create_media_folders`: one `mkdir`
per name, accumulating the `folders` association list in insertion
order. -/
def create_media_folders_aux (base : List String) :
    List String → FS → Except String (List (String × List String) × FS)
  | [], fs => Except.ok ([], fs)
  | n :: rest, fs =>
    match mkdir_exist_ok fs (base ++ [n]) with
    | Except.error e => Except.error e
    | Except.ok fs1 =>
      match create_media_folders_aux base rest fs1 with
      | Except.error e => Except.error e
      | Except.ok (fl, fs2) => Except.ok ((n, base ++ [n]) :: fl, fs2)

/-- Embeds `create_media_folders` from `download.py` lines 48-69: make
the three `MEDIA_TYPES` folders in insertion order, then the `unknown`
folder, returning the name-to-path mapping and the updated
filesystem. -/
def create_media_folders (base : List String) (fs : FS) :
    Except String (List (String × List String) × FS) :=
  create_media_folders_aux base ["videos", "images", "audios", "unknown"] fs

/-- The three status shapes of the download status panel. -/
inductive DownloadStatus where
  | allSuccessful
  | mixedSuccess
  | allFailed
deriving DecidableEq

/-- Embeds the status classification of `create_download_status_panel`
(`ui_components.py` lines 170-199): equal counts are a full success,
a positive success count short of the total is a mixed success, and
zero successes is a total failure. -/
def create_download_status_panel (success_count total_count : Nat) : DownloadStatus :=
  if success_count = total_count then DownloadStatus.allSuccessful
  else if success_count > 0 then DownloadStatus.mixedSuccess
  else DownloadStatus.allFailed

/-- A collaborator environment whose signed-URL exchange always
fails. -/
def envNoSign : Env :=
  { gcsAvailable := true
    signUrl := fun _ _ => none
    fetchOk := fun _ _ => true
    deleteOk := fun _ _ => true }

/-- A collaborator environment that accepts every exchange and every
fetch. -/
def envAccept : Env :=
  { gcsAvailable := true
    signUrl := fun b o => some ("https://signed.example/" ++ b ++ "/" ++ o)
    fetchOk := fun _ _ => true
    deleteOk := fun _ _ => true }

/-- An environment in which the storage client library is
unavailable (`GCS_AVAILABLE = False`) while the collaborator itself
would accept everything. -/
def envNoGcs : Env :=
  { gcsAvailable := false
    signUrl := fun b o => some ("https://signed.example/" ++ b ++ "/" ++ o)
    fetchOk := fun _ _ => true
    deleteOk := fun _ _ => true }

/-- An environment whose fetch fails exactly on the second test URL. -/
def envFetch2Fails : Env :=
  { gcsAvailable := true
    signUrl := fun _ _ => none
    fetchOk := fun durl _ => !(durl == "https://e.com/b.mp4")
    deleteOk := fun _ _ => true }

/-! ## Helper lemmas -/

theorem memStr_iff (x : String) (l : List String) : memStr x l = true ↔ x ∈ l := by
  induction l with
  | nil => simp [memStr]
  | cons y ys ih =>
    simp [memStr, ih, Bool.or_eq_true, beq_iff_eq]

theorem media_name_ne_empty (i : Nat) : ("media_" ++ toString i : String) ≠ "" := by
  intro h
  have h2 : ("media_" ++ toString i).length = (0 : Nat) := by rw [h]; rfl
  rw [String.length_append] at h2
  have h3 : ("media_" : String).length = 6 := rfl
  omega

theorem get_media_type_mem (e : String) :
    get_media_type e ∈ (["videos", "images", "audios", "unknown"] : List String) := by
  unfold get_media_type
  split
  · simp
  · split
    · simp
    · split <;> simp

theorem folderFor_mem (d : List String) (mt : String)
    (h : mt ∈ (["videos", "images", "audios", "unknown"] : List String)) :
    folderFor d mt = d ++ [mt] := by
  unfold folderFor
  rw [if_pos (by simpa using h)]

/-! ## C3: the media classifier is a total table lookup -/

/-- C3: for every extension string, `get_media_type` returns one of the
four categories (it is total), returns the documented category for any
extension whose lowering is in the corresponding `MEDIA_TYPES` entry,
and returns `"unknown"` whenever the lowered extension is in none of
the table's extension sets. -/
theorem classify_total_table (ext : String) :
    get_media_type ext ∈ (["videos", "images", "audios", "unknown"] : List String) ∧
    (∀ cat exts, (cat, exts) ∈ MEDIA_TYPES → lowerStr ext ∈ exts →
      get_media_type ext = cat) ∧
    ((∀ exts, exts ∈ MEDIA_TYPES.map Prod.snd → lowerStr ext ∉ exts) →
      get_media_type ext = "unknown") := by
  refine ⟨get_media_type_mem ext, ?_, ?_⟩
  · intro cat exts hmem hin
    simp only [MEDIA_TYPES, List.mem_cons, List.not_mem_nil, or_false,
      Prod.mk.injEq] at hmem
    rcases hmem with ⟨rfl, rfl⟩ | ⟨rfl, rfl⟩ | ⟨rfl, rfl⟩
    · simp only [videoExtensions, List.mem_cons, List.not_mem_nil, or_false] at hin
      rcases hin with h2 | h2 | h2 | h2 | h2 | h2 | h2 | h2 | h2 <;>
        simp only [get_media_type, h2] <;> decide
    · simp only [imageExtensions, List.mem_cons, List.not_mem_nil, or_false] at hin
      rcases hin with h2 | h2 | h2 | h2 | h2 | h2 | h2 | h2 | h2 <;>
        simp only [get_media_type, h2] <;> decide
    · simp only [audioExtensions, List.mem_cons, List.not_mem_nil, or_false] at hin
      rcases hin with h2 | h2 | h2 | h2 | h2 | h2 | h2 | h2 <;>
        simp only [get_media_type, h2] <;> decide
  · intro hall
    have hv := hall videoExtensions (by simp [MEDIA_TYPES])
    have hi := hall imageExtensions (by simp [MEDIA_TYPES])
    have ha := hall audioExtensions (by simp [MEDIA_TYPES])
    have hv2 : memStr (lowerStr ext) videoExtensions = false := by
      cases h : memStr (lowerStr ext) videoExtensions
      · rfl
      · exact absurd ((memStr_iff _ _).mp h) hv
    have hi2 : memStr (lowerStr ext) imageExtensions = false := by
      cases h : memStr (lowerStr ext) imageExtensions
      · rfl
      · exact absurd ((memStr_iff _ _).mp h) hi
    have ha2 : memStr (lowerStr ext) audioExtensions = false := by
      cases h : memStr (lowerStr ext) audioExtensions
      · rfl
      · exact absurd ((memStr_iff _ _).mp h) ha
    simp [get_media_type, hv2, hi2, ha2]

/-- Witness for C3 at the concrete extension `".MP4"`. -/
theorem classify_total_table_witness : get_media_type ".MP4" = "videos" :=
  (classify_total_table ".MP4").2.1 "videos" videoExtensions (by decide) (by decide)

/-! ## C8 and C10: the summary status classification -/

/-- C8: with a positive attempted total, the status panel classifies a
full success count as all-successful, a positive partial count as a
mixed success, and a zero count as all-failed. -/
theorem summary_classification (s t : Nat) (h : 0 < t) :
    (s = t → create_download_status_panel s t = DownloadStatus.allSuccessful) ∧
    (0 < s → s < t → create_download_status_panel s t = DownloadStatus.mixedSuccess) ∧
    (s = 0 → create_download_status_panel s t = DownloadStatus.allFailed) := by
  unfold create_download_status_panel
  refine ⟨fun h1 => by simp [h1], fun h1 h2 => ?_, fun h1 => ?_⟩
  · rw [if_neg (by omega), if_pos h1]
  · rw [if_neg (by omega), if_neg (by omega)]

/-- Witness for C8 at the concrete counts 3/3, 2/3 and 0/3. -/
theorem summary_classification_witness :
    create_download_status_panel 3 3 = DownloadStatus.allSuccessful ∧
    create_download_status_panel 2 3 = DownloadStatus.mixedSuccess ∧
    create_download_status_panel 0 3 = DownloadStatus.allFailed :=
  ⟨(summary_classification 3 3 (by decide)).1 rfl,
   (summary_classification 2 3 (by decide)).2.1 (by decide) (by decide),
   (summary_classification 0 3 (by decide)).2.2 rfl⟩

/-- C10: whenever the success count equals the attempted total,
including the degenerate zero-over-zero case, the panel reports the
all-successful status. -/
theorem summary_equal_counts_all_successful (n : Nat) :
    create_download_status_panel n n = DownloadStatus.allSuccessful := by
  simp [create_download_status_panel]

/-! ## C7: folder preparation is idempotent -/

theorem mkdir_exist_ok_spec (fs : FS) (p : List String) (fs1 : FS)
    (h : mkdir_exist_ok fs p = Except.ok fs1) :
    fs1.files = fs.files ∧ (∀ q ∈ fs.dirs, q ∈ fs1.dirs) ∧
      p ∈ fs1.dirs ∧ p ∉ fs.files := by
  unfold mkdir_exist_ok at h
  by_cases h1 : p ∈ fs.files
  · simp [h1] at h
  · by_cases h2 : p ∈ fs.dirs
    · simp only [h1, if_false, h2, if_true, if_neg, if_pos, Except.ok.injEq] at h
      subst h
      exact ⟨rfl, fun q hq => hq, h2, h1⟩
    · by_cases h3 : p.dropLast ∈ fs.dirs
      · simp only [h1, h2, h3, if_false, if_true, if_neg, if_pos,
          Except.ok.injEq] at h
        subst h
        exact ⟨rfl, fun q hq => List.mem_cons_of_mem _ hq,
          List.mem_cons_self _ _, h1⟩
      · simp [h1, h2, h3] at h

theorem mkdir_exist_ok_rerun (fs : FS) (p : List String)
    (h1 : p ∉ fs.files) (h2 : p ∈ fs.dirs) :
    mkdir_exist_ok fs p = Except.ok fs := by
  unfold mkdir_exist_ok
  rw [if_neg h1, if_pos h2]

theorem create_media_folders_aux_idem (base : List String) :
    ∀ (ns : List String) (fs fs2 : FS) (l : List (String × List String)),
      create_media_folders_aux base ns fs = Except.ok (l, fs2) →
      fs2.files = fs.files ∧ (∀ q ∈ fs.dirs, q ∈ fs2.dirs) ∧
        create_media_folders_aux base ns fs2 = Except.ok (l, fs2) := by
  intro ns
  induction ns with
  | nil =>
    intro fs fs2 l h
    unfold create_media_folders_aux at h ⊢
    simp only [Except.ok.injEq, Prod.mk.injEq] at h
    obtain ⟨rfl, rfl⟩ := h
    exact ⟨rfl, fun q hq => hq, rfl⟩
  | cons n rest ih =>
    intro fs fs2 l h
    unfold create_media_folders_aux at h
    split at h
    · simp at h
    · rename_i fs1 hm
      split at h
      · simp at h
      · rename_i fl fsr ha
        simp only [Except.ok.injEq, Prod.mk.injEq] at h
        obtain ⟨rfl, rfl⟩ := h
        obtain ⟨hf1, hd1, hp1, hnf1⟩ := mkdir_exist_ok_spec fs (base ++ [n]) fs1 hm
        obtain ⟨hf2, hd2, hrerun⟩ := ih fs1 fsr fl ha
        have hnf2 : (base ++ [n]) ∉ fsr.files := by
          rw [hf2, hf1]; exact hnf1
        have hd3 : (base ++ [n]) ∈ fsr.dirs := hd2 _ hp1
        refine ⟨by rw [hf2, hf1], fun q hq => hd2 _ (hd1 _ hq), ?_⟩
        unfold create_media_folders_aux
        rw [mkdir_exist_ok_rerun fsr (base ++ [n]) hnf2 hd3]
        dsimp only
        rw [hrerun]

/-- C7: folder preparation is idempotent — if `create_media_folders`
succeeds once, running it again on the resulting filesystem raises no
error and returns the identical layout and filesystem. -/
theorem create_media_folders_idempotent (base : List String) (fs fs2 : FS)
    (l : List (String × List String))
    (h : create_media_folders base fs = Except.ok (l, fs2)) :
    create_media_folders base fs2 = Except.ok (l, fs2) :=
  (create_media_folders_aux_idem base _ fs fs2 l h).2.2

/-- The initial filesystem of the C7 witness: only the base directory
exists. -/
def fsBase : FS := { dirs := [["out"]], files := [] }

/-- The filesystem after a successful folder preparation under
`["out"]`. -/
def fsAfter : FS :=
  { dirs := [["out", "unknown"], ["out", "audios"], ["out", "images"],
             ["out", "videos"], ["out"]]
    files := [] }

/-- The layout returned by folder preparation under `["out"]`. -/
def layoutOut : List (String × List String) :=
  [("videos", ["out", "videos"]), ("images", ["out", "images"]),
   ("audios", ["out", "audios"]), ("unknown", ["out", "unknown"])]

/-- Witness for C7: a concrete double run of the folder preparation. -/
theorem create_media_folders_idempotent_witness :
    create_media_folders ["out"] fsBase = Except.ok (layoutOut, fsAfter) ∧
    create_media_folders ["out"] fsAfter = Except.ok (layoutOut, fsAfter) :=
  ⟨rfl, create_media_folders_idempotent ["out"] fsBase fsAfter layoutOut rfl⟩

/-! ## C9: the URI resolver -/

/-- C9 counterexample: with the storage client library unavailable
(`GCS_AVAILABLE = False`) and a collaborator that would accept every
exchange, the resolver fails on a plain (non-storage-URI) reference
instead of returning it unchanged, so the resolver does not fail
exactly on malformed or rejected storage URIs. -/
theorem resolver_counterexample :
    strStartsWith "https://example.com/video.mp4" "gs://" = false ∧
    convert_gcs_uri_to_signed_url envNoGcs "https://example.com/video.mp4" = none ∧
    envNoGcs.signUrl "any-bucket" "any/blob.mp4" ≠ none := by
  refine ⟨rfl, rfl, ?_⟩
  intro h
  simp [envNoGcs] at h

/-- C9 (amended): when the storage client library is unavailable every
resolution fails, including plain references; when it is available the
resolver returns plain references unchanged, and fails exactly when
the reference is a storage URI that is either malformed (no slash
splits bucket from object path) or rejected by the collaborator. -/
theorem resolver_characterization (env : Env) (uri : String) :
    (env.gcsAvailable = false → convert_gcs_uri_to_signed_url env uri = none) ∧
    (env.gcsAvailable = true → strStartsWith uri "gs://" = false →
      convert_gcs_uri_to_signed_url env uri = some uri) ∧
    (env.gcsAvailable = true →
      (convert_gcs_uri_to_signed_url env uri = none ↔
        strStartsWith uri "gs://" = true ∧
          ((¬ ∃ b o, splitOnce (stripGs uri) = [b, o]) ∨
            ∃ b o, splitOnce (stripGs uri) = [b, o] ∧ env.signUrl b o = none))) := by
  refine ⟨fun h => by simp [convert_gcs_uri_to_signed_url, h],
    fun h hgs => by simp [convert_gcs_uri_to_signed_url, h, hgs], fun h => ?_⟩
  unfold convert_gcs_uri_to_signed_url
  rw [h]
  cases hgs : strStartsWith uri "gs://" with
  | false => simp [hgs]
  | true =>
    simp only [hgs, Bool.true_eq_false, if_false, if_neg, reduceCtorEq]
    cases hs : splitOnce (stripGs uri) with
    | nil => simp [hs]
    | cons x xs =>
      cases xs with
      | nil => simp [hs]
      | cons y ys =>
        cases ys with
        | nil =>
          dsimp only
          constructor
          · intro hn
            exact ⟨trivial, Or.inr ⟨x, y, rfl, hn⟩⟩
          · rintro ⟨-, hdis | ⟨b, o, hbo, hn⟩⟩
            · exact absurd ⟨x, y, rfl⟩ hdis
            · injection hbo with h1 h2
              injection h2 with h2 h3
              subst h1
              subst h2
              exact hn
        | cons z zs => simp [hs]

/-- Witness for the amended C9: with the library available, a plain
reference resolves to itself. -/
theorem resolver_characterization_witness :
    convert_gcs_uri_to_signed_url envAccept "https://example.com/clip.mp4" =
      some "https://example.com/clip.mp4" :=
  (resolver_characterization envAccept "https://example.com/clip.mp4").2.1 rfl (by decide)

/-! ## C6: filename derivation -/

/-- C6 counterexample: for the storage URI `gs://bucket/` the derived
filename is the empty string — the `media_{i}` fallback is not applied
even though the final path segment is empty. -/
theorem derive_filename_counterexample :
    deriveFilename 1 "gs://bucket/" = "" ∧ ("media_" ++ toString 1 : String) ≠ "" := by
  exact ⟨rfl, by decide⟩

/-- C6 (amended): the derived filename is the final segment of the URL
path for plain references, with the `media_{i}` fallback whenever that
segment is empty, so it is never empty for plain references; for
storage URIs the fallback applies exactly when the stripped URI has no
slash, and otherwise the filename is the object path's final segment,
which is empty for object paths such as the one of `gs://bucket/`. -/
theorem derive_filename_characterization (i : Nat) (uri : String) :
    (strStartsWith uri "gs://" = false →
      deriveFilename i uri =
        (if pathName (urlPath uri) = "" then "media_" ++ toString i
         else pathName (urlPath uri)) ∧
      deriveFilename i uri ≠ "") ∧
    (strStartsWith uri "gs://" = true →
      ((∃ x, splitOnce (stripGs uri) = [x]) →
        deriveFilename i uri = "media_" ++ toString i) ∧
      (∀ b o, splitOnce (stripGs uri) = [b, o] → deriveFilename i uri = pathName o)) := by
  constructor
  · intro h
    constructor
    · simp [deriveFilename, h]
    · by_cases hn : pathName (urlPath uri) = ""
      · simp only [deriveFilename, h, Bool.false_eq_true, if_false, if_neg,
          reduceCtorEq, hn, if_true]
        exact media_name_ne_empty i
      · simp [deriveFilename, h, hn]
  · intro h
    constructor
    · rintro ⟨x, hx⟩
      simp [deriveFilename, h, hx]
    · intro b o hbo
      simp [deriveFilename, h, hbo]

/-- Witness for the amended C6: the URL fallback and a storage URI
with a regular object path. -/
theorem derive_filename_characterization_witness :
    deriveFilename 7 "https://example.com" = "media_7" ∧
    deriveFilename 2 "gs://bucket/path/video.mp4" = "video.mp4" := by
  constructor
  · have h := (derive_filename_characterization 7 "https://example.com").1 (by decide)
    rw [h.1]
    decide
  · have h := ((derive_filename_characterization 2 "gs://bucket/path/video.mp4").2
      (by decide)).2 "bucket" "path/video.mp4" (by decide)
    rw [h]
    decide

/-! ## Orchestrator lemmas -/

theorem mem_fetchPlanFrom_fst (env : Env) (d : List String) (org : Bool)
    (u : String) :
    ∀ (i : Nat) (uris : List String),
      (u ∈ (fetchPlanFrom env d org i uris).map (fun e => e.1)) ↔
        (u ∈ uris ∧ resolveStep env u ≠ none) := by
  intro i uris
  induction uris generalizing i with
  | nil => simp [fetchPlanFrom]
  | cons v rest ih =>
    cases hr : resolveStep env v with
    | none =>
      simp only [fetchPlanFrom, hr]
      rw [ih (i + 1)]
      simp only [List.mem_cons]
      constructor
      · rintro ⟨hm, hn⟩
        exact ⟨Or.inr hm, hn⟩
      · rintro ⟨hm | hm, hn⟩
        · subst hm
          exact absurd hr hn
        · exact ⟨hm, hn⟩
    | some durl =>
      simp only [fetchPlanFrom, hr, List.map_cons, List.mem_cons]
      rw [ih (i + 1)]
      constructor
      · rintro (rfl | ⟨hm, hn⟩)
        · exact ⟨Or.inl rfl, by simp [hr]⟩
        · exact ⟨Or.inr hm, hn⟩
      · rintro ⟨hm | hm, hn⟩
        · exact Or.inl hm
        · exact Or.inr ⟨hm, hn⟩

theorem fetchPlanFrom_length (env : Env) (d : List String) (org : Bool) :
    ∀ (i : Nat) (uris : List String),
      (∀ u ∈ uris, resolveStep env u ≠ none) →
      (fetchPlanFrom env d org i uris).length = uris.length := by
  intro i uris
  induction uris generalizing i with
  | nil => intro _; rfl
  | cons v rest ih =>
    intro hall
    cases hr : resolveStep env v with
    | none => exact absurd hr (hall v (List.mem_cons_self _ _))
    | some durl =>
      simp only [fetchPlanFrom, hr, List.length_cons]
      rw [ih (i + 1) (fun u hu => hall u (List.mem_cons_of_mem _ hu))]

theorem fetchPlanFrom_map_fst (env : Env) (d : List String) (org : Bool) :
    ∀ (i : Nat) (uris : List String),
      (∀ u ∈ uris, resolveStep env u ≠ none) →
      (fetchPlanFrom env d org i uris).map (fun e => e.1) = uris := by
  intro i uris
  induction uris generalizing i with
  | nil => intro _; rfl
  | cons v rest ih =>
    intro hall
    cases hr : resolveStep env v with
    | none => exact absurd hr (hall v (List.mem_cons_self _ _))
    | some durl =>
      simp only [fetchPlanFrom, hr, List.map_cons]
      rw [ih (i + 1) (fun u hu => hall u (List.mem_cons_of_mem _ hu))]

theorem zip_filter_sublist {α : Type} :
    ∀ (l : List α) (bs : List Bool),
      List.Sublist ((l.zip bs).filterMap (fun p => if p.2 then some p.1 else none)) l := by
  intro l
  induction l with
  | nil => intro bs; simp
  | cons x xs ih =>
    intro bs
    cases bs with
    | nil => simp
    | cons b bt =>
      cases b with
      | false =>
        simp only [List.zip_cons_cons, List.filterMap_cons, if_neg, if_false,
          Bool.false_eq_true]
        exact List.Sublist.cons x (ih bt)
      | true =>
        simp only [List.zip_cons_cons, List.filterMap_cons, if_pos, if_true]
        exact List.Sublist.cons₂ x (ih bt)

theorem successfulDownloads_sublist (env : Env) (d : List String) (org : Bool)
    (uris : List String) :
    List.Sublist (successfulDownloads env d org uris) (fileMapping env d org uris) := by
  unfold successfulDownloads
  exact zip_filter_sublist _ _

theorem mem_successfulDownloads_fst (env : Env) (d : List String) (org : Bool)
    (uris : List String) (u : String)
    (h : u ∈ (successfulDownloads env d org uris).map Prod.fst) :
    u ∈ (fileMapping env d org uris).map Prod.fst :=
  ((successfulDownloads_sublist env d org uris).map Prod.fst).subset h

theorem fileMapping_map_fst (env : Env) (d : List String) (org : Bool)
    (uris : List String) :
    (fileMapping env d org uris).map Prod.fst =
      (fetchPlanFrom env d org 1 uris).map (fun e => e.1) := by
  simp [fileMapping, fetchPlan, List.map_map]

theorem mem_cleanupCalls (env : Env) (d : List String) (org : Bool)
    (uris : List String) (cg : Bool) (u : String)
    (h : u ∈ cleanupCalls env d org uris cg) :
    u ∈ (successfulDownloads env d org uris).map Prod.fst ∧
      strStartsWith u "gs://" = true := by
  unfold cleanupCalls at h
  split at h
  · exact List.mem_filter.mp h
  · simp at h

theorem cleanupCalls_iff (env : Env) (d : List String) (org : Bool)
    (uris : List String) (u : String) :
    u ∈ cleanupCalls env d org uris true ↔
      (u ∈ (successfulDownloads env d org uris).map Prod.fst ∧
        strStartsWith u "gs://" = true) := by
  unfold cleanupCalls
  split
  · exact List.mem_filter
  · rename_i hcond
    have hemp : successfulDownloads env d org uris = [] := by
      by_contra hne
      exact hcond ⟨rfl, hne⟩
    simp [hemp]

theorem convert_some_delete_target (env : Env) (u : String)
    (hgs : strStartsWith u "gs://" = true)
    (hc : convert_gcs_uri_to_signed_url env u ≠ none) :
    gcsDeleteTarget env u ≠ none := by
  unfold convert_gcs_uri_to_signed_url at hc
  unfold gcsDeleteTarget
  by_cases hav : env.gcsAvailable = false
  · rw [if_pos hav] at hc
    exact absurd rfl hc
  · rw [if_neg hav] at hc ⊢
    rw [if_neg (by simp [hgs])] at hc ⊢
    cases hs : splitOnce (stripGs u) with
    | nil => rw [hs] at hc; simp at hc
    | cons x xs =>
      cases xs with
      | nil => rw [hs] at hc; simp at hc
      | cons y ys =>
        cases ys with
        | nil => simp
        | cons z zs => rw [hs] at hc; simp at hc

/-! ## C1: a failed resolution is isolated -/

/-- C1: when signed-URL resolution fails for the storage-URI reference
at position `j`, that reference joins no fetch attempt (it is absent
from the file mapping), is reported as a failure (absent from the
successful downloads), receives no cleanup delete call, and every
other reference whose resolution succeeds is still fetched — the batch
is not aborted. -/
theorem resolution_failure_isolated (env : Env) (d : List String) (org cg : Bool)
    (uris : List String) (j : Nat) (hj : j < uris.length)
    (hgs : strStartsWith uris[j] "gs://" = true)
    (hfail : convert_gcs_uri_to_signed_url env uris[j] = none) :
    uris[j] ∉ (fileMapping env d org uris).map Prod.fst ∧
    uris[j] ∉ (successfulDownloads env d org uris).map Prod.fst ∧
    uris[j] ∉ cleanupCalls env d org uris cg ∧
    (∀ u ∈ uris, resolveStep env u ≠ none →
      u ∈ (fileMapping env d org uris).map Prod.fst) := by
  have hres : resolveStep env uris[j] = none := by
    simp [resolveStep, hgs, hfail]
  have h1 : uris[j] ∉ (fileMapping env d org uris).map Prod.fst := by
    rw [fileMapping_map_fst]
    intro hmem
    exact ((mem_fetchPlanFrom_fst env d org _ 1 uris).mp hmem).2 hres
  have h2 : uris[j] ∉ (successfulDownloads env d org uris).map Prod.fst :=
    fun hm => h1 (mem_successfulDownloads_fst env d org uris _ hm)
  have h3 : uris[j] ∉ cleanupCalls env d org uris cg :=
    fun hm => h2 (mem_cleanupCalls env d org uris cg _ hm).1
  refine ⟨h1, h2, h3, fun u hu hr => ?_⟩
  rw [fileMapping_map_fst]
  exact (mem_fetchPlanFrom_fst env d org u 1 uris).mpr ⟨hu, hr⟩

/-- Witness for C1: a two-reference batch in which the storage URI
fails resolution and the plain URL is still fetched. -/
theorem resolution_failure_isolated_witness :
    "gs://bucket/path/video.mp4" ∉
      (fileMapping envNoSign ["out"] true
        ["gs://bucket/path/video.mp4", "https://example.com/clip.mp4"]).map Prod.fst ∧
    "gs://bucket/path/video.mp4" ∉
      cleanupCalls envNoSign ["out"] true
        ["gs://bucket/path/video.mp4", "https://example.com/clip.mp4"] true ∧
    "https://example.com/clip.mp4" ∈
      (fileMapping envNoSign ["out"] true
        ["gs://bucket/path/video.mp4", "https://example.com/clip.mp4"]).map Prod.fst := by
  have h := resolution_failure_isolated envNoSign ["out"] true true
    ["gs://bucket/path/video.mp4", "https://example.com/clip.mp4"] 0 (by decide)
    (by decide) (by decide)
  exact ⟨h.1, h.2.2.1, h.2.2.2 "https://example.com/clip.mp4" (by decide) (by decide)⟩

/-! ## C4: outcome counts and output ordering -/

/-- C4: when every reference of the batch reaches the fetch phase, the
internally attempted outcome list has exactly one entry per input
reference, the attempted mapping lists the references in input order,
and the returned successful downloads are an order-preserving sublist
of the attempted mapping and of the input references. -/
theorem outcome_count_and_order (env : Env) (d : List String) (org : Bool)
    (uris : List String) (hall : ∀ u ∈ uris, resolveStep env u ≠ none) :
    (fetchResults env d org uris).length = uris.length ∧
    (fileMapping env d org uris).length = uris.length ∧
    (fileMapping env d org uris).map Prod.fst = uris ∧
    List.Sublist (successfulDownloads env d org uris) (fileMapping env d org uris) ∧
    List.Sublist ((successfulDownloads env d org uris).map Prod.fst) uris := by
  have hlen := fetchPlanFrom_length env d org 1 uris hall
  have hfst := fetchPlanFrom_map_fst env d org 1 uris hall
  have hmapfst : (fileMapping env d org uris).map Prod.fst = uris := by
    rw [fileMapping_map_fst]
    exact hfst
  refine ⟨?_, ?_, hmapfst, successfulDownloads_sublist env d org uris, ?_⟩
  · simpa [fetchResults, fetchPlan] using hlen
  · simpa [fileMapping, fetchPlan] using hlen
  · have h5 := (successfulDownloads_sublist env d org uris).map Prod.fst
    rwa [hmapfst] at h5

/-- Witness for C4: three plain references whose second fetch fails;
the two successes come back in input order and three outcomes are
attempted. -/
theorem outcome_count_and_order_witness :
    (fetchResults envFetch2Fails ["out"] false
      ["https://e.com/a.mp4", "https://e.com/b.mp4", "https://e.com/c.mp4"]).length = 3 ∧
    successfulDownloads envFetch2Fails ["out"] false
      ["https://e.com/a.mp4", "https://e.com/b.mp4", "https://e.com/c.mp4"] =
      [("https://e.com/a.mp4", ["out", "a.mp4"]),
       ("https://e.com/c.mp4", ["out", "c.mp4"])] ∧
    List.Sublist
      ((successfulDownloads envFetch2Fails ["out"] false
        ["https://e.com/a.mp4", "https://e.com/b.mp4", "https://e.com/c.mp4"]).map
          Prod.fst)
      ["https://e.com/a.mp4", "https://e.com/b.mp4", "https://e.com/c.mp4"] := by
  have h := outcome_count_and_order envFetch2Fails ["out"] false
    ["https://e.com/a.mp4", "https://e.com/b.mp4", "https://e.com/c.mp4"] (by decide)
  refine ⟨by rw [h.1]; decide, by decide, h.2.2.2.2⟩

/-! ## C5: cleanup deletes exactly the storage-URI successes -/

/-- C5: with cleanup enabled, a reference receives a delete call
exactly when it is among the successful downloads and is a storage
URI; with cleanup disabled no calls are made; no reference that is not
a confirmed download is ever deleted; a plain-URL success receives no
delete call; and every delete call actually reaches the collaborator
with a valid bucket and object path. -/
theorem cleanup_exactly_gcs_successes (env : Env) (d : List String) (org : Bool)
    (uris : List String) :
    (∀ u, u ∈ cleanupCalls env d org uris true ↔
      (u ∈ (successfulDownloads env d org uris).map Prod.fst ∧
        strStartsWith u "gs://" = true)) ∧
    cleanupCalls env d org uris false = [] ∧
    (∀ u cg, u ∈ cleanupCalls env d org uris cg →
      u ∈ (successfulDownloads env d org uris).map Prod.fst) ∧
    (∀ u cg, strStartsWith u "gs://" = false →
      u ∉ cleanupCalls env d org uris cg) ∧
    (∀ u, u ∈ cleanupCalls env d org uris true → gcsDeleteTarget env u ≠ none) := by
  refine ⟨fun u => cleanupCalls_iff env d org uris u, ?_,
    fun u cg hm => (mem_cleanupCalls env d org uris cg u hm).1,
    fun u cg hplain hm => ?_, fun u hm => ?_⟩
  · unfold cleanupCalls
    simp
  · have h2 := (mem_cleanupCalls env d org uris cg u hm).2
    rw [hplain] at h2
    exact Bool.false_ne_true h2
  · obtain ⟨hsucc, hgs⟩ := mem_cleanupCalls env d org uris true u hm
    have hmap := mem_successfulDownloads_fst env d org uris u hsucc
    rw [fileMapping_map_fst] at hmap
    have hres := ((mem_fetchPlanFrom_fst env d org u 1 uris).mp hmap).2
    have hconv : convert_gcs_uri_to_signed_url env u ≠ none := by
      simpa [resolveStep, hgs] using hres
    exact convert_some_delete_target env u hgs hconv

/-- Witness for C5: a batch with one storage-URI success and one
plain-URL success; only the storage URI is deleted. -/
theorem cleanup_exactly_gcs_successes_witness :
    "gs://bucket/a.mp4" ∈ cleanupCalls envAccept ["out"] true
      ["gs://bucket/a.mp4", "https://e.com/b.mp4"] true ∧
    "https://e.com/b.mp4" ∉ cleanupCalls envAccept ["out"] true
      ["gs://bucket/a.mp4", "https://e.com/b.mp4"] true := by
  have h := cleanup_exactly_gcs_successes envAccept ["out"] true
    ["gs://bucket/a.mp4", "https://e.com/b.mp4"]
  exact ⟨(h.1 "gs://bucket/a.mp4").mpr ⟨by decide, by decide⟩,
    h.2.2.2.1 "https://e.com/b.mp4" true (by decide)⟩

/-! ## C2: the organized filesystem layout -/

/-- C2 counterexample: for a plain URL with filename `clip.mp4`, an
organized run places the file under the directory named `videos`
(plural, as `MEDIA_TYPES` names it), not under `video` as the claim
states. -/
theorem organized_layout_counterexample :
    successfulDownloads envAccept ["base"] true ["https://example.com/clip.mp4"] =
      [("https://example.com/clip.mp4", ["base", "videos", "clip.mp4"])] ∧
    (["base", "videos", "clip.mp4"] : List String) ≠ ["base", "video", "clip.mp4"] := by
  exact ⟨rfl, by decide⟩

/-- C2 (amended): for a plain URL whose URL path has final segment
`clip.mp4`, an organized run attempts — and on fetch success returns —
the local file `<base>/videos/clip.mp4`; in general, an organized run
places a file with non-empty derived name under
`<outputDir>/{videos, images, audios, unknown}/<filename>` and an
unorganized run places it at `<outputDir>/<filename>`. -/
theorem organized_layout_characterization (env : Env) (d : List String)
    (uri : String) (hplain : strStartsWith uri "gs://" = false)
    (hname : pathName (urlPath uri) = "clip.mp4") :
    fileMapping env d true [uri] = [(uri, d ++ ["videos", "clip.mp4"])] ∧
    (env.fetchOk uri (d ++ ["videos", "clip.mp4"]) = true →
      successfulDownloads env d true [uri] = [(uri, d ++ ["videos", "clip.mp4"])]) ∧
    (∀ fn : String, fn ≠ "" →
      targetPath d true fn =
        d ++ [get_media_type (lowerStr (pathSuffix fn)), fn] ∧
      get_media_type (lowerStr (pathSuffix fn)) ∈
        (["videos", "images", "audios", "unknown"] : List String) ∧
      targetPath d false fn = d ++ [fn]) := by
  have hres : resolveStep env uri = some uri := by
    simp [resolveStep, hplain]
  have hdf : deriveFilename 1 uri = "clip.mp4" := by
    simp [deriveFilename, hplain, hname]
  have hgm : get_media_type (lowerStr (pathSuffix "clip.mp4")) = "videos" := by decide
  have htp : targetPath d true "clip.mp4" = d ++ ["videos", "clip.mp4"] := by
    simp [targetPath, hgm, folderFor, pathJoin]
  have hmap : fileMapping env d true [uri] = [(uri, d ++ ["videos", "clip.mp4"])] := by
    simp [fileMapping, fetchPlan, fetchPlanFrom, hres, hdf, htp]
  refine ⟨hmap, fun hfetch => ?_, fun fn hfn => ?_⟩
  · simp [successfulDownloads, hmap, fetchResults, fetchPlan, fetchPlanFrom,
      hres, hdf, htp, hfetch]
  · refine ⟨?_, get_media_type_mem _, ?_⟩
    · have hmem := get_media_type_mem (lowerStr (pathSuffix fn))
      rw [show targetPath d true fn =
          pathJoin (folderFor d (get_media_type (lowerStr (pathSuffix fn)))) fn
        from rfl]
      rw [folderFor_mem d _ hmem]
      simp [pathJoin, hfn]
    · simp [targetPath, pathJoin, hfn]

/-- Witness for the amended C2 at the concrete round-trip reference. -/
theorem organized_layout_characterization_witness :
    fileMapping envAccept ["base"] true ["https://example.com/clip.mp4"] =
      [("https://example.com/clip.mp4", ["base", "videos", "clip.mp4"])] :=
  (organized_layout_characterization envAccept ["base"] "https://example.com/clip.mp4"
    (by decide) (by decide)).1

end AiMediaStudio
